import Mathlib

/-!
# Verification of the Peekaboo attendance/payroll engine

Shallow embedding of the payroll computation pipeline of the repository
(`processPayroll` in `src/types.ts` lines 477-740, the current revision of
`src/services/payrollProcessor.ts`; the manager actions of
`src/components/PayrollResults.tsx` and of the current `PayrollResults`
revision in `src/unnamed/part_001`).

Modelling conventions:
* JavaScript `Date` values are modelled as `Int` seconds since the Unix epoch
  in local civil time (the computation is timezone-naive; we identify local
  time with UTC, as the spec's data model does).
* JavaScript `number` (IEEE double) is modelled as the exact rational `ℚ`;
  all amounts appearing in the program are small decimals, and every claim
  under verification is an exact algebraic statement, not a rounding one.
* String processing (trimming, regexes, parseFloat/parseInt prefixes) is
  implemented over `List Char` by structural recursion so that concrete runs
  reduce in the kernel.
* The ambient impure inputs of the source are explicit parameters:
  `Math.random()`-generated shift ids become an id supply `Nat → String`
  (one id consumed per emitted shift, in emission order), and
  `startOfToday()` becomes a `today : Int` parameter.
-/

namespace Peekaboo

/-! ## Time primitives (JS `Date` + the date-fns helpers used by the source) -/

/-- An instant: seconds since the Unix epoch, local civil time. -/
abbrev Instant := Int

def secPerDay : Int := 86400

/-- `startOfDayNative` from the source: zero out the time-of-day. -/
def startOfDayNative (t : Instant) : Instant := secPerDay * Int.fdiv t secPerDay

/-- `setTimeOnDate` from the source: `d.setHours(hours, minutes, seconds, 0)`.
JS `setHours` rolls out-of-range components over into neighbouring days,
which plain arithmetic on seconds reproduces. -/
def setTimeOnDate (t : Instant) (hours minutes : Int) (seconds : Int := 0) : Instant :=
  startOfDayNative t + 3600 * hours + 60 * minutes + seconds

/-- JS `Date.prototype.getHours` (local). -/
def getHoursOf (t : Instant) : Int := Int.fdiv (Int.emod t secPerDay) 3600

/-- JS `Date.prototype.getMinutes` (local). -/
def getMinutesOf (t : Instant) : Int := Int.fdiv (Int.emod t 3600) 60

/-- date-fns `getDay` = JS `Date.prototype.getDay`: 0 = Sunday … 6 = Saturday.
Epoch day 0 (1970-01-01) was a Thursday, hence the offset 4. -/
def getDayOf (t : Instant) : Int := Int.emod (Int.fdiv t secPerDay + 4) 7

/-- Day-of-week names (JS numbering 0 = Sunday … 6 = Saturday). -/
inductive Weekday where
  | sunday | monday | tuesday | wednesday | thursday | friday | saturday
  deriving DecidableEq, Repr

def weekdayOf (t : Instant) : Weekday :=
  let n := getDayOf t
  if n = 0 then .sunday
  else if n = 1 then .monday
  else if n = 2 then .tuesday
  else if n = 3 then .wednesday
  else if n = 4 then .thursday
  else if n = 5 then .friday
  else .saturday

/-- The integer conversion JS/date-fns apply to a fractional day amount:
truncation toward zero (date-fns `toInteger`, and the `ToIntegerOrInfinity`
step of `Date.prototype.setDate`). -/
def jsTruncToInt (q : ℚ) : Int := if q < 0 then Int.ceil q else Int.floor q

/-- date-fns `addDays(date, amount)`: the fractional part of `amount` is
truncated away before the add (so `addDays(d, 0.375)` adds zero days). -/
def addDays (t : Instant) (amount : ℚ) : Instant :=
  t + secPerDay * jsTruncToInt amount

/-- date-fns `differenceInMinutes`: millisecond difference divided by 60000,
rounded toward zero (`Int.div` truncates toward zero). -/
def differenceInMinutes (a b : Instant) : Int := Int.tdiv (a - b) 60

/-! ## Civil calendar arithmetic (for `new Date(y, m, d)` and formatting) -/

/-- Days since 1970-01-01 of the civil date `(y, m, d)` with `m ∈ [1,12]`
(d may be out of range: days roll over, as JS `MakeDay` does). -/
def daysFromCivil (y m d : Int) : Int :=
  let y' := if m ≤ 2 then y - 1 else y
  let era := Int.fdiv y' 400
  let yoe := y' - era * 400
  let mp := Int.emod (m + 9) 12
  let doy := Int.fdiv (153 * mp + 2) 5 + d - 1
  let doe := yoe * 365 + Int.fdiv yoe 4 - Int.fdiv yoe 100 + doy
  era * 146097 + doe - 719468

/-- Inverse of `daysFromCivil`: the civil `(year, month, day)` of an epoch day. -/
def civilFromDays (z0 : Int) : Int × Int × Int :=
  let z := z0 + 719468
  let era := Int.fdiv z 146097
  let doe := z - era * 146097
  let yoe := Int.fdiv (doe - Int.fdiv doe 1460 + Int.fdiv doe 36524 - Int.fdiv doe 146096) 365
  let y := yoe + era * 400
  let doy := doe - (365 * yoe + Int.fdiv yoe 4 - Int.fdiv yoe 100)
  let mp := Int.fdiv (5 * doy + 2) 153
  let d := doy - Int.fdiv (153 * mp + 2) 5 + 1
  let m := mp + (if mp < 10 then 3 else -9)
  (if m ≤ 2 then y + 1 else y, m, d)

/-- JS `new Date(y, m0, d)` (month `m0` zero-based, both month and day roll
over; a year in `[0, 99]` is interpreted as `1900 + y`), as an epoch instant
at local midnight. -/
def jsDateYMD (y m0 d : Int) : Instant :=
  let y' := if 0 ≤ y ∧ y ≤ 99 then y + 1900 else y
  let ym := y' + Int.fdiv m0 12
  let mn := Int.emod m0 12
  secPerDay * (daysFromCivil ym (mn + 1) 1 + (d - 1))

def isLeapYear (y : Int) : Bool :=
  (Int.emod y 4 = 0 ∧ Int.emod y 100 ≠ 0) ∨ Int.emod y 400 = 0

def daysInMonth (y m : Int) : Int :=
  if m = 1 ∨ m = 3 ∨ m = 5 ∨ m = 7 ∨ m = 8 ∨ m = 10 ∨ m = 12 then 31
  else if m = 4 ∨ m = 6 ∨ m = 9 ∨ m = 11 then 30
  else if isLeapYear y then 29 else 28

def monthName (m : Int) : String :=
  if m = 1 then "January" else if m = 2 then "February" else if m = 3 then "March"
  else if m = 4 then "April" else if m = 5 then "May" else if m = 6 then "June"
  else if m = 7 then "July" else if m = 8 then "August" else if m = 9 then "September"
  else if m = 10 then "October" else if m = 11 then "November"
  else if m = 12 then "December" else ""

def monthAbbrev (m : Int) : String :=
  if m = 1 then "Jan" else if m = 2 then "Feb" else if m = 3 then "Mar"
  else if m = 4 then "Apr" else if m = 5 then "May" else if m = 6 then "Jun"
  else if m = 7 then "Jul" else if m = 8 then "Aug" else if m = 9 then "Sep"
  else if m = 10 then "Oct" else if m = 11 then "Nov"
  else if m = 12 then "Dec" else ""

/-- The epoch-day index of an instant (stands in for the normalized
`format(d, 'yyyy-MM-dd')` string, which is in bijection with it and compares
in the same order). -/
def epochDayOf (t : Instant) : Int := Int.fdiv t secPerDay

/-- date-fns `format(d, 'MMMM yyyy')` of a local-midnight instant. -/
def formatMonthYear (t : Instant) : String :=
  let c := civilFromDays (epochDayOf t)
  monthName c.2.1 ++ " " ++ toString c.1

/-- date-fns `format(d, 'MMM d, yyyy')` of a local-midnight instant. -/
def formatMedium (t : Instant) : String :=
  let c := civilFromDays (epochDayOf t)
  monthAbbrev c.2.1 ++ " " ++ toString c.2.2 ++ ", " ++ toString c.1

/-! ## String utilities (JS `trim`, `replace(/\s+/g, ' ')`, `toLowerCase`) -/

def isWsCh (c : Char) : Bool := c.isWhitespace

/-- JS `String.prototype.trim` on a character list. -/
def trimL (cs : List Char) : List Char :=
  ((cs.dropWhile isWsCh).reverse.dropWhile isWsCh).reverse

/-- JS `replace(/\s+/g, ' ')`: collapse every whitespace run to one space. -/
def collapseWs (cs : List Char) : List Char :=
  (cs.foldr (fun c (st : List Char × Bool) =>
    if isWsCh c then (if st.2 then st.1 else ' ' :: st.1, true) else (c :: st.1, false))
    ([], false)).1

/-- ASCII lower-casing, as JS `toLowerCase` acts on the names in play. -/
def lowerCh (c : Char) : Char :=
  if 'A' ≤ c ∧ c ≤ 'Z' then Char.ofNat (c.toNat + 32) else c

def lowerL (cs : List Char) : List Char := cs.map lowerCh

def toLowerStr (s : String) : String := String.mk (lowerL s.data)

/-- JS `replace(/^"(.*)"$/, '$1')`: strip one pair of surrounding quotes. -/
def stripQuotes (cs : List Char) : List Char :=
  match cs with
  | [] => []
  | c :: rest =>
    if c = '"' ∧ rest ≠ [] ∧ rest.getLast? = some '"' then rest.dropLast else cs

/-- Split on maximal runs of separator characters, JS
`String.prototype.split(/X+/)` style: a leading or trailing run yields an
empty segment, interior runs yield single cuts. -/
def splitRuns (p : Char → Bool) (cs : List Char) : List (List Char) :=
  (cs.foldr (fun c (st : List (List Char) × Bool) =>
    if p c then (if st.2 then st.1 else [] :: st.1, true)
    else (match st.1 with
          | seg :: rest => ((c :: seg) :: rest, false)
          | [] => ([[c]], false)))
    ([[]], false)).1

/-! ## Numeric prefix parsers (JS `parseInt` / `parseFloat`) -/

def isDigitCh (c : Char) : Bool := '0' ≤ c ∧ c ≤ '9'

def digVal (c : Char) : Int := (c.toNat : Int) - 48

/-- Consume a digit prefix, returning accumulated value, digit count, rest. -/
def digitsPrefix : List Char → Int → Nat → Int × Nat × List Char
  | c :: rest, acc, n =>
    if isDigitCh c then digitsPrefix rest (10 * acc + digVal c) (n + 1) else (acc, n, c :: rest)
  | [], acc, n => (acc, n, [])

/-- JS `parseInt(s)` (decimal): skip whitespace, optional sign, digit prefix;
`none` models `NaN`. (The hexadecimal `0x` legacy form does not arise here.) -/
def jsParseInt (cs : List Char) : Option Int :=
  let cs := cs.dropWhile isWsCh
  let (sign, cs) : Int × List Char :=
    match cs with
    | '-' :: rest => (-1, rest)
    | '+' :: rest => (1, rest)
    | _ => (1, cs)
  let (v, n, _) := digitsPrefix cs 0 0
  if n = 0 then none else some (sign * v)

/-- JS `parseFloat(s)`: skip whitespace, optional sign, digits, optional
fractional part; `none` models `NaN`. (Exponent notation does not arise in
the inputs in play and is omitted.) -/
def jsParseFloat (cs : List Char) : Option ℚ :=
  let cs := cs.dropWhile isWsCh
  let (sign, cs) : ℚ × List Char :=
    match cs with
    | '-' :: rest => (-1, rest)
    | '+' :: rest => (1, rest)
    | _ => (1, cs)
  let (ip, ni, rest) := digitsPrefix cs 0 0
  match rest with
  | '.' :: rest2 =>
    let (fp, nf, _) := digitsPrefix rest2 0 0
    if ni + nf = 0 then none
    else some (sign * ((ip : ℚ) + (fp : ℚ) / ((10 : ℚ) ^ nf)))
  | _ => if ni = 0 then none else some (sign * (ip : ℚ))

/-- `parseCurrency` from the source: strip every character outside
digits/`.`/`-`, then `parseFloat`, with `NaN`/empty collapsing to `0`. -/
def parseCurrency (s : String) : ℚ :=
  let cleaned := s.data.filter (fun c => isDigitCh c ∨ c = '.' ∨ c = '-')
  (jsParseFloat cleaned).getD 0

/-! ## `extractTimeComponents` (the time regex of the source) -/

structure TimeComp where
  hours : Int
  minutes : Int
  seconds : Int
  deriving DecidableEq, Repr

def isTimeSep (c : Char) : Bool := c = ':' ∨ c = '.'

/-- AM/PM designator: `true` = PM. Case-insensitive, as the regex's `i` flag. -/
def ampmAt (cs : List Char) : Option Bool :=
  match cs.dropWhile isWsCh with
  | a :: m :: _ =>
    if (a = 'A' ∨ a = 'a') ∧ (m = 'M' ∨ m = 'm') then some false
    else if (a = 'P' ∨ a = 'p') ∧ (m = 'M' ∨ m = 'm') then some true
    else none
  | _ => none

/-- After the minutes: the optional `[:.]\d{1,2}` seconds group, then
`\s*(AM|PM)?`. Always succeeds (both trailing groups are optional). -/
def timeTail (h m : Int) (cs : List Char) : TimeComp × Option Bool :=
  match cs with
  | s0 :: s1 :: s2 :: rest =>
    if isTimeSep s0 ∧ isDigitCh s1 ∧ isDigitCh s2 then
      (⟨h, m, 10 * digVal s1 + digVal s2⟩, ampmAt rest)
    else if isTimeSep s0 ∧ isDigitCh s1 then
      (⟨h, m, digVal s1⟩, ampmAt (s2 :: rest))
    else (⟨h, m, 0⟩, ampmAt cs)
  | s0 :: s1 :: rest =>
    if isTimeSep s0 ∧ isDigitCh s1 then (⟨h, m, digVal s1⟩, ampmAt rest)
    else (⟨h, m, 0⟩, ampmAt cs)
  | _ => (⟨h, m, 0⟩, ampmAt cs)

/-- The minutes group `(\d{1,2})` (greedy) and everything after it. -/
def timeMinutes (h : Int) (cs : List Char) : Option (TimeComp × Option Bool) :=
  match cs with
  | m1 :: m2 :: rest =>
    if isDigitCh m1 ∧ isDigitCh m2 then some (timeTail h (10 * digVal m1 + digVal m2) rest)
    else if isDigitCh m1 then some (timeTail h (digVal m1) (m2 :: rest))
    else none
  | [m1] => if isDigitCh m1 then some (timeTail h (digVal m1) []) else none
  | [] => none

/-- One attempt of `(\d{1,2})[:.](\d{1,2})(?:[:.](\d{1,2}))?\s*(AM|PM)?`
anchored at the head of `cs` (greedy hours with the regex's backtracking). -/
def matchTimeAt (cs : List Char) : Option (TimeComp × Option Bool) :=
  match cs with
  | c1 :: c2 :: c3 :: rest =>
    if isDigitCh c1 ∧ isDigitCh c2 ∧ isTimeSep c3 then
      timeMinutes (10 * digVal c1 + digVal c2) rest
    else if isDigitCh c1 ∧ isTimeSep c2 then timeMinutes (digVal c1) (c3 :: rest)
    else none
  | _ => none

/-- Unanchored regex search: first position where the pattern matches. -/
def scanTime : List Char → Option (TimeComp × Option Bool)
  | [] => none
  | c :: rest => (matchTimeAt (c :: rest)).orElse (fun _ => scanTime rest)

/-- `extractTimeComponents` from the source: trim, match the time regex
anywhere in the string, apply the 12-hour AM/PM conversion. -/
def extractTimeComponents (s : String) : Option TimeComp :=
  if trimL s.data = [] then none
  else
    match scanTime (trimL s.data) with
    | none => none
    | some (t, ampm) =>
      let hours :=
        match ampm with
        | some true => if t.hours < 12 then t.hours + 12 else t.hours
        | some false => if t.hours = 12 then 0 else t.hours
        | none => t.hours
      some ⟨hours, t.minutes, t.seconds⟩

/-! ## `robustParseDate` (the date parser of the source, `src/types.ts` 510-539) -/

def isDateSep (c : Char) : Bool := c = '-' ∨ c = '/' ∨ c = '.' ∨ isWsCh c ∨ c = ','

/-- Strict ISO `yyyy-MM-dd` at local midnight. Modelled subset of the
engine's native `new Date(string)` parser: the unambiguous ISO date-only
form (the computation is timezone-naive, so UTC midnight and local midnight
coincide). Other legacy native formats and the date-fns explicit-format list
(month-name formats) are not modelled; every claim under verification
depends only on whether a date parses, and the concrete inputs used in
witnesses are ISO. -/
def parseIsoDate (cs : List Char) : Option Instant :=
  match cs with
  | [y1, y2, y3, y4, h1, m1, m2, h2, d1, d2] =>
    if isDigitCh y1 ∧ isDigitCh y2 ∧ isDigitCh y3 ∧ isDigitCh y4 ∧ h1 = '-' ∧
        isDigitCh m1 ∧ isDigitCh m2 ∧ h2 = '-' ∧ isDigitCh d1 ∧ isDigitCh d2 then
      let y := 1000 * digVal y1 + 100 * digVal y2 + 10 * digVal y3 + digVal y4
      let m := 10 * digVal m1 + digVal m2
      let d := 10 * digVal d1 + digVal d2
      if 1 ≤ m ∧ m ≤ 12 ∧ 1 ≤ d ∧ d ≤ daysInMonth y m then
        some (secPerDay * daysFromCivil y m d)
      else none
    else none
  | _ => none

/-- `robustParseDate`: empty is `null`; otherwise trim, strip quotes,
collapse whitespace; try the native parse; then the numeric three-part
fallback (`p0 > 1000` year-first, else `p2 > 1000` year-last), with
`parseInt` `NaN`s making the `> 1000` guards false and invalidating the
constructed date. -/
def robustParseDate (s : String) : Option Instant :=
  if s = "" then none
  else
    let cleaned := collapseWs (stripQuotes (trimL s.data))
    match parseIsoDate cleaned with
    | some t => some t
    | none =>
      let parts := splitRuns isDateSep cleaned
      if 3 ≤ parts.length then
        let p0 := jsParseInt ((parts.get? 0).getD [])
        let p1 := jsParseInt ((parts.get? 1).getD [])
        let p2 := jsParseInt ((parts.get? 2).getD [])
        let mk : Option Int → Option Int → Option Int → Option Instant := fun y m d =>
          match y, m, d with
          | some y, some m, some d => some (jsDateYMD y (m - 1) d)
          | _, _, _ => none
        let gt1000 : Option Int → Bool := fun p => match p with
          | some v => 1000 < v
          | none => false
        match (if gt1000 p0 then mk p0 p1 p2 else none) with
        | some t => some t
        | none => if gt1000 p2 then mk p2 p1 p0 else none
      else none

/-! ## Data model (`src/types.ts` interfaces) -/

/-- `AttendanceRecord`: an open header-to-value mapping, one per raw row. -/
abbrev AttendanceRecord := List (String × String)

/-- `record[key] || ''`: JS property access with the falsy-default idiom. -/
def recGet (r : AttendanceRecord) (key : String) : String :=
  ((r.find? (fun p => p.1 = key)).map (fun p => p.2)).getD ""

structure ColumnMapping where
  name : String
  date : String
  checkIn : String
  checkOut : String
  paid : String
  penalty : Option String
  deriving DecidableEq, Repr

inductive LogType where
  | MIDNIGHT_ADJUST | HEADER_FIX | TIME_INTERPOLATION | NAME_NORMALIZATION
  deriving DecidableEq, Repr

structure CleansingLog where
  type : LogType
  message : String
  deriving DecidableEq, Repr

inductive ShiftType where
  | A | B | C
  deriving DecidableEq, Repr

/-- `DayShift` (the `ComputedShift` of the spec). `date` holds the epoch-day
index standing in for the normalized `yyyy-MM-dd` string (they are in
bijection and compare identically). -/
structure DayShift where
  id : String
  date : Int
  name : String
  actualIn : Instant
  actualOut : Instant
  shiftType : ShiftType
  shiftStart : Instant
  latenessMinutes : Int
  earlyMinutes : ℚ
  workHours : ℚ
  durationHours : ℚ
  otHours : ℚ
  otPay : ℚ
  standardPay : ℚ
  attendancePenalty : ℚ
  manualPenalty : ℚ
  manualAdjustment : ℚ
  penaltyWaiver : ℚ
  adjustmentNote : Option String
  netPay : ℚ
  amountPaid : ℚ
  balanceRemaining : ℚ
  deriving DecidableEq, Repr

structure ShiftCounts where
  A : Nat
  B : Nat
  C : Nat
  deriving DecidableEq, Repr

structure EmployeeSummary where
  name : String
  workDays : Nat
  shiftCounts : ShiftCounts
  totalStandardPay : ℚ
  totalOTPay : ℚ
  totalAttendancePenalties : ℚ
  totalManualPenalties : ℚ
  totalManualAdjustments : ℚ
  totalPenaltyWaivers : ℚ
  netSalary : ℚ
  amountPaid : ℚ
  netRemaining : ℚ
  rank : Option Nat
  penaltyFreeDays : Nat
  deriving DecidableEq, Repr

structure MonthlyStat where
  month : String
  daysWorked : Nat
  standardPay : ℚ
  otPay : ℚ
  penalties : ℚ
  netPay : ℚ
  totalPaid : ℚ
  deriving DecidableEq, Repr

structure NamedCount where
  name : String
  value : ℚ
  deriving DecidableEq, Repr

structure StrategicInsights where
  mostReliable : NamedCount
  topLateOffender : NamedCount
  penaltyRecoveryRate : ℚ
  totalOTHours : ℚ
  shiftAUsage : ℚ
  shiftBUsage : ℚ
  shiftCUsage : ℚ
  perfectAttendanceStaff : List String
  totalFutureLiability : ℚ
  deriving DecidableEq, Repr

structure DateRange where
  start : String
  «end» : String
  deriving DecidableEq, Repr

structure PayrollResult where
  summaries : List EmployeeSummary
  totalStandardOwed : ℚ
  totalOTPayout : ℚ
  totalPenalties : ℚ
  totalManualAdjustments : ℚ
  totalPenaltyWaivers : ℚ
  totalNetOwed : ℚ
  totalPaidDisbursed : ℚ
  totalRemainingBalance : ℚ
  totalDaysWorked : Nat
  totalLatenessMins : Int
  efficiencyScore : ℚ
  monthlyStats : List MonthlyStat
  insights : StrategicInsights
  detailedLogs : List DayShift
  cleansingLogs : List CleansingLog
  dateRange : DateRange
  deriving DecidableEq, Repr

/-! ## First pass of `processPayroll`: row cleansing and grouping
(`src/types.ts` 555-580). Groups live in an association list in
first-insertion order, matching JS object key order for these keys. -/

structure Group where
  /-- `${nameVal.toLowerCase()}|${normDate}` (the date part as epoch day). -/
  key : String × Int
  /-- First-seen original-cased display name. -/
  displayName : String
  /-- The first contributing row's parsed date object. -/
  parsedDate : Instant
  /-- All contributing rows, in arrival order. -/
  records : List AttendanceRecord
  deriving DecidableEq, Repr

structure GroupState where
  groups : List Group
  logs : List CleansingLog
  deriving DecidableEq, Repr

/-- `nameVal`: trim then collapse inner whitespace. -/
def nameValOf (mapping : ColumnMapping) (r : AttendanceRecord) : String :=
  String.mk (collapseWs (trimL (recGet r mapping.name).data))

def dateValOf (mapping : ColumnMapping) (r : AttendanceRecord) : String :=
  String.mk (trimL (recGet r mapping.date).data)

/-- Append `r` to the group with this key, or open a new group at the end. -/
def insertIntoGroups (key : String × Int) (displayName : String) (parsedDate : Instant)
    (r : AttendanceRecord) : List Group → List Group
  | [] => [⟨key, displayName, parsedDate, [r]⟩]
  | g :: rest =>
    if g.key = key then { g with records := g.records ++ [r] } :: rest
    else g :: insertIntoGroups key displayName parsedDate r rest

/-- One iteration of the cleansing/grouping `forEach` (`src/types.ts` 555-580):
skip empty or header-literal names, skip empty dates silently, log and skip
unparseable dates, otherwise group by (lowercased name, normalized date). -/
def groupStep (mapping : ColumnMapping) (st : GroupState) (r : AttendanceRecord) : GroupState :=
  let nameVal := nameValOf mapping r
  if nameVal = "" ∨ toLowerStr nameVal = "name" ∨ toLowerStr nameVal = "employee_name" then st
  else
    let dateVal := dateValOf mapping r
    if dateVal = "" then st
    else
      match robustParseDate dateVal with
      | none =>
        { st with logs := st.logs ++
            [⟨.TIME_INTERPOLATION,
              "Skipping record for " ++ nameVal ++ " due to unparseable date: \"" ++ dateVal ++ "\""⟩] }
      | some dateObj =>
        let key := (toLowerStr nameVal, epochDayOf dateObj)
        { st with groups := insertIntoGroups key nameVal dateObj r st.groups }

def groupPass (rawRecords : List AttendanceRecord) (mapping : ColumnMapping) : GroupState :=
  rawRecords.foldl (groupStep mapping) ⟨[], []⟩

/-! ## Second pass: one `DayShift` per group (`src/types.ts` 582-649) -/

/-- `Math.min` over a nonempty list of instants (the `0` default is never
reached: the call site guards on a nonempty list). -/
def listMin : List Instant → Instant
  | [] => 0
  | x :: xs => xs.foldl min x

def listMax : List Instant → Instant
  | [] => 0
  | x :: xs => xs.foldl max x

/-- The shift classification block (`src/types.ts` 612-626): arrival
minute-of-day against 10:30 / 12:30, with the Thursday/Friday 15:00 start
for shift B. -/
def classifyShift (actualIn : Instant) : ShiftType × Instant :=
  let totalMinutesOfDay := getHoursOf actualIn * 60 + getMinutesOf actualIn
  if totalMinutesOfDay < 10 * 60 + 30 then
    (.A, setTimeOnDate (startOfDayNative actualIn) 10 0)
  else if totalMinutesOfDay ≤ 12 * 60 + 30 then
    (.C, setTimeOnDate (startOfDayNative actualIn) 11 0)
  else
    let isThuFri := getDayOf actualIn = 4 ∨ getDayOf actualIn = 5
    (.B, setTimeOnDate (startOfDayNative actualIn) (if isThuFri then 15 else 14) 0)

/-- The lateness penalty tiers (`src/types.ts` 629-632), highest tier first. -/
def attendancePenaltyOf (latenessMinutes : Int) : ℚ :=
  if latenessMinutes ≥ 60 then 10
  else if latenessMinutes ≥ 20 then 5
  else if latenessMinutes ≥ 10 then 3
  else 0

/-- `BREAK_HOURS` constant of the source. -/
def BREAK_HOURS : ℚ := 1

/-- `r[mapping.penalty || 'Penalty']`: the manual-penalty column name with
the JS falsy default. -/
def penaltyColOf (mapping : ColumnMapping) : String :=
  match mapping.penalty with
  | some p => if p = "" then "Penalty" else p
  | none => "Penalty"

/-- The body of the per-group `forEach` (`src/types.ts` 582-649): either the
placeholder shift (no parseable check-in) or the full shift computation. -/
def shiftOfGroup (mapping : ColumnMapping) (id : String) (g : Group) : DayShift :=
  let checkInTimes := g.records.filterMap (fun r => extractTimeComponents (recGet r mapping.checkIn))
  let checkOutTimes := g.records.filterMap (fun r => extractTimeComponents (recGet r mapping.checkOut))
  let dailyPaid := g.records.foldl (fun sum r => sum + parseCurrency (recGet r mapping.paid)) 0
  let manualPenalty :=
    g.records.foldl (fun sum r => sum + parseCurrency (recGet r (penaltyColOf mapping))) 0
  if checkInTimes = [] then
    { id, name := g.displayName, date := epochDayOf g.parsedDate,
      actualIn := g.parsedDate, actualOut := g.parsedDate,
      shiftType := .A, shiftStart := g.parsedDate, latenessMinutes := 0, earlyMinutes := 0,
      workHours := 0, durationHours := 0, otHours := 0, otPay := 0, standardPay := 0,
      attendancePenalty := 0, manualPenalty, manualAdjustment := 0, penaltyWaiver := 0,
      adjustmentNote := none, netPay := 0, amountPaid := dailyPaid,
      balanceRemaining := -dailyPaid }
  else
    let datesIn := checkInTimes.map (fun t => setTimeOnDate g.parsedDate t.hours t.minutes t.seconds)
    let datesOut := checkOutTimes.map (fun t => setTimeOnDate g.parsedDate t.hours t.minutes t.seconds)
    let actualIn := listMin datesIn
    let actualOut0 := if datesOut ≠ [] then listMax datesOut else addDays actualIn (0.375 : ℚ)
    let actualOut := if actualOut0 < actualIn then addDays actualOut0 1 else actualOut0
    let cls := classifyShift actualIn
    let latenessMinutes := max 0 (differenceInMinutes actualIn cls.2)
    let attendancePenalty := attendancePenaltyOf latenessMinutes
    let rawWorkHours : ℚ := ((actualOut - actualIn : Int) : ℚ) / 3600
    let durationHours := max 0 (rawWorkHours - BREAK_HOURS)
    let otHours := max 0 (rawWorkHours - 9)
    let otPay := otHours * (1.56 : ℚ)
    let netPay := (10.0 : ℚ) + otPay - attendancePenalty - manualPenalty
    { id, name := g.displayName, date := epochDayOf g.parsedDate, actualIn, actualOut,
      shiftType := cls.1, shiftStart := cls.2, latenessMinutes,
      earlyMinutes := max 0 ((9 - rawWorkHours) * 60), workHours := rawWorkHours,
      durationHours, otHours, otPay, standardPay := (10.0 : ℚ), attendancePenalty,
      manualPenalty, manualAdjustment := 0, penaltyWaiver := 0, adjustmentNote := none,
      netPay, amountPaid := dailyPaid, balanceRemaining := netPay - dailyPaid }

/-! ## Third pass: aggregation (`src/types.ts` 651-699) -/

structure AggState where
  empMap : List EmployeeSummary
  monthMap : List ((Int × Int) × MonthlyStat)
  totalFutureLiability : ℚ
  minDate : Option Instant
  maxDate : Option Instant
  deriving DecidableEq, Repr

def freshEmp (name : String) : EmployeeSummary :=
  { name, workDays := 0, shiftCounts := ⟨0, 0, 0⟩, totalStandardPay := 0, totalOTPay := 0,
    totalAttendancePenalties := 0, totalManualPenalties := 0, totalManualAdjustments := 0,
    totalPenaltyWaivers := 0, netSalary := 0, amountPaid := 0, netRemaining := 0,
    rank := none, penaltyFreeDays := 0 }

/-- A shift counts as a worked day: `shift.netPay > 0 || shift.workHours > 0`. -/
def isWorkedDay (s : DayShift) : Bool := s.netPay > 0 ∨ s.workHours > 0

def bumpCounts (t : ShiftType) (c : ShiftCounts) : ShiftCounts :=
  match t with
  | .A => { c with A := c.A + 1 }
  | .B => { c with B := c.B + 1 }
  | .C => { c with C := c.C + 1 }

/-- The per-shift employee-summary mutations of the aggregation loop. -/
def bumpEmp (s : DayShift) (e : EmployeeSummary) : EmployeeSummary :=
  { e with
    workDays := if isWorkedDay s then e.workDays + 1 else e.workDays,
    totalStandardPay := e.totalStandardPay + s.standardPay,
    totalOTPay := e.totalOTPay + s.otPay,
    totalAttendancePenalties := e.totalAttendancePenalties + s.attendancePenalty,
    totalManualPenalties := e.totalManualPenalties + s.manualPenalty,
    netSalary := e.netSalary + s.netPay,
    amountPaid := e.amountPaid + s.amountPaid,
    netRemaining := e.netRemaining + s.balanceRemaining,
    shiftCounts := if s.workHours > 0 then bumpCounts s.shiftType e.shiftCounts else e.shiftCounts,
    penaltyFreeDays :=
      if s.attendancePenalty = 0 ∧ isWorkedDay s then e.penaltyFreeDays + 1
      else e.penaltyFreeDays }

def updateEmpMap (s : DayShift) : List EmployeeSummary → List EmployeeSummary
  | [] => [bumpEmp s (freshEmp s.name)]
  | e :: rest => if e.name = s.name then bumpEmp s e :: rest else e :: updateEmpMap s rest

def freshMonth (label : String) : MonthlyStat :=
  { month := label, daysWorked := 0, standardPay := 0, otPay := 0, penalties := 0,
    netPay := 0, totalPaid := 0 }

def bumpMonth (s : DayShift) (m : MonthlyStat) : MonthlyStat :=
  { m with
    daysWorked := if isWorkedDay s then m.daysWorked + 1 else m.daysWorked,
    standardPay := m.standardPay + s.standardPay,
    otPay := m.otPay + s.otPay,
    penalties := m.penalties + s.attendancePenalty + s.manualPenalty,
    netPay := m.netPay + s.netPay,
    totalPaid := m.totalPaid + s.amountPaid }

def updateMonthMap (s : DayShift) (key : Int × Int) (label : String) :
    List ((Int × Int) × MonthlyStat) → List ((Int × Int) × MonthlyStat)
  | [] => [(key, bumpMonth s (freshMonth label))]
  | (k, m) :: rest =>
    if k = key then (k, bumpMonth s m) :: rest else (k, m) :: updateMonthMap s key label rest

/-- One iteration of the aggregation `forEach` (`src/types.ts` 657-699). -/
def aggStep (today : Instant) (st : AggState) (s : DayShift) : AggState :=
  let shiftDate : Instant := secPerDay * s.date
  let minDate := match st.minDate with
    | none => some shiftDate
    | some d => if shiftDate < d then some shiftDate else some d
  let maxDate := match st.maxDate with
    | none => some shiftDate
    | some d => if shiftDate > d then some shiftDate else some d
  let civil := civilFromDays s.date
  let monthKey := (civil.1, civil.2.1)
  { empMap := updateEmpMap s st.empMap,
    monthMap := updateMonthMap s monthKey (formatMonthYear shiftDate) st.monthMap,
    totalFutureLiability :=
      if shiftDate > today then st.totalFutureLiability + s.netPay else st.totalFutureLiability,
    minDate, maxDate }

/-! ## Sorting (JS `Array.prototype.sort` is stable; a stable insertion sort
produces the same output for the total preorders used here). -/

/-- Insert behind every element not strictly after `x` (stability). -/
def stableInsert (lt : α → α → Bool) (x : α) : List α → List α
  | [] => [x]
  | y :: ys => if lt x y then x :: y :: ys else y :: stableInsert lt x ys

def stableSort (lt : α → α → Bool) (l : List α) : List α :=
  l.foldl (fun acc x => stableInsert lt x acc) []

/-- `(a, b) => b.netSalary - a.netSalary`: descending net salary. -/
def empLt (a b : EmployeeSummary) : Bool := b.netSalary < a.netSalary

/-- `(a, b) => a.month.localeCompare(b.month)`: ascending display label. -/
def monthLt (a b : MonthlyStat) : Bool := a.month < b.month

/-! ## Result assembly (`src/types.ts` 701-739) -/

def assemble (today : Instant) (cleansingLogs : List CleansingLog)
    (dayShifts : List DayShift) : PayrollResult :=
  let agg := dayShifts.foldl (aggStep today) ⟨[], [], 0, none, none⟩
  let summaries :=
    ((stableSort empLt agg.empMap).enum).map (fun p => { p.2 with rank := some (p.1 + 1) })
  let totalLateMins := dayShifts.foldl (fun a b => a + b.latenessMinutes) 0
  let totalPenalties := dayShifts.foldl (fun a b => a + b.attendancePenalty + b.manualPenalty) 0
  let totalOTPay := summaries.foldl (fun a b => a + b.totalOTPay) 0
  let totalNetOwed := summaries.foldl (fun a b => a + b.netSalary) 0
  let totalPaid := summaries.foldl (fun a b => a + b.amountPaid) 0
  let workedCount := (dayShifts.filter isWorkedDay).length
  let hoursCount := (dayShifts.filter (fun s => s.workHours > 0)).length
  { summaries,
    totalStandardOwed := summaries.foldl (fun a b => a + b.totalStandardPay) 0,
    totalOTPayout := totalOTPay,
    totalPenalties,
    totalManualAdjustments := 0,
    totalPenaltyWaivers := 0,
    totalNetOwed,
    totalPaidDisbursed := totalPaid,
    totalRemainingBalance := totalNetOwed - totalPaid,
    totalDaysWorked := workedCount,
    totalLatenessMins := totalLateMins,
    efficiencyScore :=
      1 - totalPenalties / (if (workedCount : ℚ) * 10 = 0 then 1 else (workedCount : ℚ) * 10),
    monthlyStats := stableSort monthLt (agg.monthMap.map (fun p => p.2)),
    insights :=
      { mostReliable :=
          match summaries with
          | [] => ⟨"N/A", 0⟩
          | s0 :: _ =>
            let w := summaries.foldl
              (fun a b => if a.penaltyFreeDays > b.penaltyFreeDays then a else b) s0
            ⟨if w.name = "" then "N/A" else w.name, (w.penaltyFreeDays : ℚ)⟩,
        topLateOffender :=
          match summaries with
          | [] => ⟨"N/A", 0⟩
          | s0 :: _ =>
            let w := summaries.foldl
              (fun a b => if a.totalAttendancePenalties > b.totalAttendancePenalties then a else b) s0
            ⟨if w.name = "" then "N/A" else w.name, w.totalAttendancePenalties⟩,
        penaltyRecoveryRate :=
          totalPenalties /
            (if totalPenalties + totalOTPay = 0 then 1 else totalPenalties + totalOTPay),
        totalOTHours := dayShifts.foldl (fun a b => a + b.otHours) 0,
        shiftAUsage :=
          ((dayShifts.filter (fun s => s.shiftType = .A ∧ s.workHours > 0)).length : ℚ) /
            (if hoursCount = 0 then 1 else (hoursCount : ℚ)),
        shiftBUsage :=
          ((dayShifts.filter (fun s => s.shiftType = .B ∧ s.workHours > 0)).length : ℚ) /
            (if hoursCount = 0 then 1 else (hoursCount : ℚ)),
        shiftCUsage :=
          ((dayShifts.filter (fun s => s.shiftType = .C ∧ s.workHours > 0)).length : ℚ) /
            (if hoursCount = 0 then 1 else (hoursCount : ℚ)),
        perfectAttendanceStaff :=
          (summaries.filter
            (fun s => s.totalAttendancePenalties = 0 ∧ s.workDays > 0)).map (fun s => s.name),
        totalFutureLiability := agg.totalFutureLiability },
    detailedLogs := dayShifts,
    cleansingLogs,
    dateRange :=
      ⟨match agg.minDate with
        | none => "N/A"
        | some d => formatMedium d,
       match agg.maxDate with
        | none => "N/A"
        | some d => formatMedium d⟩ }

/-- `processPayroll` (`src/types.ts` 549-740). The `Math.random()` shift-id
generator is the explicit supply `ids` (one id per emitted shift, in
emission order); `startOfToday()` is the explicit `today`. -/
def processPayroll (rawRecords : List AttendanceRecord) (mapping : ColumnMapping)
    (today : Instant) (ids : Nat → String) : PayrollResult :=
  let st := groupPass rawRecords mapping
  let dayShifts := (st.groups.enum).map (fun p => shiftOfGroup mapping (ids p.1) p.2)
  assemble today st.logs dayShifts

/-! ## Manager actions

`applyOtherPenalty` / `removePenalty` from `src/components/PayrollResults.tsx`
(lines 214-245) and `toggleWaiver` / `addManagerNote` from the current
`PayrollResults` revision (`src/unnamed/part_001`, lines 82-99). The blocking
`prompt()` inputs are explicit `Option String` parameters (`none` = the user
cancelled). -/

/-- The mutation applied by `applyOtherPenalty` to the targeted shift once
the amount parsed and a non-empty reason was supplied. -/
def applyOtherPenaltyCore (parsed : ℚ) (reason : String) (log : DayShift) : DayShift :=
  let newManual := log.manualAdjustment + parsed
  let newNet := (log.standardPay + log.otPay - log.attendancePenalty + log.penaltyWaiver) - newManual
  { log with
    manualAdjustment := newManual,
    adjustmentNote :=
      match log.adjustmentNote with
      | some note => some (note ++ " | " ++ reason)
      | none => some reason,
    netPay := newNet,
    balanceRemaining := newNet - log.amountPaid }

/-- `applyOtherPenalty` (`src/components/PayrollResults.tsx` 214-229). -/
def applyOtherPenalty (id : String) (amount : Option String) (reason : Option String)
    (logs : List DayShift) : List DayShift :=
  match amount with
  | none => logs
  | some a =>
    match jsParseFloat a.data with
    | none => logs
    | some parsed =>
      match reason with
      | none => logs
      | some r =>
        if r = "" then logs
        else logs.map (fun log => if log.id = id then applyOtherPenaltyCore parsed r log else log)

/-- The un-waive branch of `removePenalty` (waiver currently positive). -/
def removePenaltyUnwaive (l : DayShift) : DayShift :=
  let newNet := (l.standardPay + l.otPay - l.attendancePenalty) - l.manualAdjustment
  { l with penaltyWaiver := 0, netPay := newNet, balanceRemaining := newNet - l.amountPaid }

/-- The waive branch of `removePenalty` with a supplied (possibly empty)
reason string. -/
def removePenaltyWaive (reason : String) (l : DayShift) : DayShift :=
  let newNet := (l.standardPay + l.otPay) - l.manualAdjustment
  { l with
    penaltyWaiver := l.attendancePenalty,
    adjustmentNote :=
      match l.adjustmentNote with
      | some note => some (note ++ " | Waived: " ++ reason)
      | none => some ("Waived: " ++ reason),
    netPay := newNet,
    balanceRemaining := newNet - l.amountPaid }

/-- The per-shift behaviour of `removePenalty`: un-waive unconditionally
when waived; otherwise waive unless the reason prompt was cancelled
(`null`). An empty string reason is accepted. -/
def removePenaltyShift (reason : Option String) (l : DayShift) : DayShift :=
  if l.penaltyWaiver > 0 then removePenaltyUnwaive l
  else
    match reason with
    | none => l
    | some r => removePenaltyWaive r l

/-- `removePenalty` (`src/components/PayrollResults.tsx` 231-245). -/
def removePenalty (id : String) (reason : Option String) (logs : List DayShift) :
    List DayShift :=
  logs.map (fun l => if l.id = id then removePenaltyShift reason l else l)

/-- The per-shift toggle of `toggleWaiver` (`src/unnamed/part_001` 84-89). -/
def toggleWaiverCore (l : DayShift) : DayShift :=
  let currentlyWaived := l.penaltyWaiver > 0
  let newWaiverAmount := if currentlyWaived then 0 else l.attendancePenalty
  let newNet := (l.standardPay + l.otPay - (l.attendancePenalty - newWaiverAmount)) - l.manualAdjustment
  { l with
    penaltyWaiver := newWaiverAmount,
    netPay := newNet,
    balanceRemaining := newNet - l.amountPaid }

/-- `toggleWaiver` (`src/unnamed/part_001` 82-92). -/
def toggleWaiver (id : String) (logs : List DayShift) : List DayShift :=
  logs.map (fun l => if l.id = id then toggleWaiverCore l else l)

/-- `addManagerNote` (`src/unnamed/part_001` 94-99): a cancelled prompt is a
no-op; any string (empty included) replaces the note. -/
def addManagerNote (id : String) (note : Option String) (logs : List DayShift) :
    List DayShift :=
  match note with
  | none => logs
  | some n => logs.map (fun l => if l.id = id then { l with adjustmentNote := some n } else l)

/-- A manager-edit history: any interleaving of the four actions. -/
inductive ManagerAction where
  | adjust (id : String) (amount : Option String) (reason : Option String)
  | waiverButton (id : String) (reason : Option String)
  | toggle (id : String)
  | note (id : String) (text : Option String)
  deriving DecidableEq, Repr

def applyAction (a : ManagerAction) (logs : List DayShift) : List DayShift :=
  match a with
  | .adjust id amount reason => applyOtherPenalty id amount reason logs
  | .waiverButton id reason => removePenalty id reason logs
  | .toggle id => toggleWaiver id logs
  | .note id text => addManagerNote id text logs

def applyActions (acts : List ManagerAction) (logs : List DayShift) : List DayShift :=
  acts.foldl (fun l a => applyAction a l) logs

/-! ## Derived predicates used by the verified properties

The Batteries rational operations are `@[irreducible]`; concrete runs of the
embedded pipeline are evaluated by `decide`, so restore their ordinary
(kernel-visible) reducibility for the rest of this development. -/

attribute [local semireducible] Rat.add Rat.mul Rat.sub Rat.inv Rat.ofScientific

/-- The §3 invariant:
`netPay == standardPay + otPay - (attendancePenalty - penaltyWaiver) -
manualPenalty - manualAdjustment` and `balanceRemaining == netPay - amountPaid`. -/
def payInvariant (s : DayShift) : Prop :=
  s.netPay = s.standardPay + s.otPay - (s.attendancePenalty - s.penaltyWaiver)
      - s.manualPenalty - s.manualAdjustment ∧
  s.balanceRemaining = s.netPay - s.amountPaid

/-- The invariant, conditional on a zero manual penalty (the shape actually
maintained by the code, see C1). -/
def mpInv (s : DayShift) : Prop := s.manualPenalty = 0 → payInvariant s

def groupCheckIns (mapping : ColumnMapping) (g : Group) : List TimeComp :=
  g.records.filterMap (fun r => extractTimeComponents (recGet r mapping.checkIn))

def groupPaidSum (mapping : ColumnMapping) (g : Group) : ℚ :=
  g.records.foldl (fun sum r => sum + parseCurrency (recGet r mapping.paid)) 0

def groupManualPenaltySum (mapping : ColumnMapping) (g : Group) : ℚ :=
  g.records.foldl (fun sum r => sum + parseCurrency (recGet r (penaltyColOf mapping))) 0

/-- The shift record with its random id blanked out (everything except the
`Math.random()` artefact). -/
def stripShift (s : DayShift) : DayShift := { s with id := "" }

def stripResult (r : PayrollResult) : PayrollResult :=
  { r with detailedLogs := r.detailedLogs.map stripShift }

/-- Projection of the two manager-visible pay outcomes. -/
def payProj (s : DayShift) : ℚ × ℚ := (s.netPay, s.balanceRemaining)

/-! ## Helper lemmas -/

theorem processPayroll_detailedLogs (rows : List AttendanceRecord) (mapping : ColumnMapping)
    (today : Instant) (ids : Nat → String) :
    (processPayroll rows mapping today ids).detailedLogs
      = ((groupPass rows mapping).groups.enum).map (fun p => shiftOfGroup mapping (ids p.1) p.2) :=
  rfl

theorem shiftOfGroup_mpInv (mapping : ColumnMapping) (id : String) (g : Group) :
    mpInv (shiftOfGroup mapping id g) := by
  unfold mpInv payInvariant
  simp only [shiftOfGroup]
  split <;> intro h <;> dsimp only at h ⊢ <;> constructor <;> (try rw [h]) <;> ring

theorem shiftOfGroup_waiver_zero (mapping : ColumnMapping) (id : String) (g : Group) :
    (shiftOfGroup mapping id g).penaltyWaiver = 0 := by
  simp only [shiftOfGroup]; split <;> rfl

theorem shiftOfGroup_mAdj_zero (mapping : ColumnMapping) (id : String) (g : Group) :
    (shiftOfGroup mapping id g).manualAdjustment = 0 := by
  simp only [shiftOfGroup]; split <;> rfl

theorem attendancePenaltyOf_nonneg (t : Int) : 0 ≤ attendancePenaltyOf t := by
  unfold attendancePenaltyOf; split_ifs <;> norm_num

theorem shiftOfGroup_pen_nonneg (mapping : ColumnMapping) (id : String) (g : Group) :
    0 ≤ (shiftOfGroup mapping id g).attendancePenalty := by
  simp only [shiftOfGroup]
  split
  · norm_num
  · exact attendancePenaltyOf_nonneg _

/-- Members of the pipeline's shift list are `shiftOfGroup` images. -/
theorem mem_detailedLogs (rows : List AttendanceRecord) (mapping : ColumnMapping)
    (today : Instant) (ids : Nat → String) (s : DayShift)
    (hs : s ∈ (processPayroll rows mapping today ids).detailedLogs) :
    ∃ i g, s = shiftOfGroup mapping (ids i) g := by
  rw [processPayroll_detailedLogs] at hs
  obtain ⟨p, _, hp⟩ := List.mem_map.mp hs
  exact ⟨p.1, p.2, hp.symm⟩

/-! ## C2: shift classification -/

/-- C2: with `m` the arrival's minutes past local midnight as the code
computes them, `m < 630` yields type A with nominal start 10:00 of the
arrival's day; `630 ≤ m ≤ 750` (boundaries included, so 10:30 and 12:30)
yields type C with start 11:00; `m > 750` yields type B with start 14:00,
or 15:00 when the arrival's weekday is Thursday or Friday. -/
theorem claim_C2_shift_classification (t : Instant) :
    (getHoursOf t * 60 + getMinutesOf t < 630 →
      classifyShift t = (.A, setTimeOnDate (startOfDayNative t) 10 0)) ∧
    (630 ≤ getHoursOf t * 60 + getMinutesOf t → getHoursOf t * 60 + getMinutesOf t ≤ 750 →
      classifyShift t = (.C, setTimeOnDate (startOfDayNative t) 11 0)) ∧
    (750 < getHoursOf t * 60 + getMinutesOf t →
      classifyShift t = (.B, setTimeOnDate (startOfDayNative t)
        (if weekdayOf t = .thursday ∨ weekdayOf t = .friday then 15 else 14) 0)) := by
  have hwd : (weekdayOf t = Weekday.thursday ∨ weekdayOf t = Weekday.friday) ↔
      (getDayOf t = 4 ∨ getDayOf t = 5) := by
    unfold weekdayOf
    dsimp only
    split_ifs <;> simp_all
  refine ⟨fun h1 => ?_, fun h2 h3 => ?_, fun h4 => ?_⟩ <;> unfold classifyShift <;> dsimp only
  · rw [if_pos (by omega)]
  · rw [if_neg (by omega), if_pos (by omega)]
  · rw [if_neg (by omega), if_neg (by omega)]
    by_cases hth : getDayOf t = 4 ∨ getDayOf t = 5
    · rw [if_pos hth, if_pos (hwd.mpr hth)]
    · rw [if_neg hth, if_neg (fun hc => hth (hwd.mp hc))]

/-- C2 witness: concrete arrivals on 2024-01-15 (a Monday) at 10:29, 10:30,
12:30 and 12:31, and on 2024-01-18 (a Thursday) at 13:20. -/
theorem claim_C2_witness :
    classifyShift (1705276800 + 629 * 60) = (.A, 1705276800 + 600 * 60) ∧
    classifyShift (1705276800 + 630 * 60) = (.C, 1705276800 + 660 * 60) ∧
    classifyShift (1705276800 + 750 * 60) = (.C, 1705276800 + 660 * 60) ∧
    classifyShift (1705276800 + 751 * 60) = (.B, 1705276800 + 840 * 60) ∧
    classifyShift (1705536000 + 800 * 60) = (.B, 1705536000 + 900 * 60) := by
  refine ⟨(claim_C2_shift_classification _).1 (by decide), ?_, ?_, ?_, ?_⟩
  · have := (claim_C2_shift_classification (1705276800 + 630 * 60)).2.1 (by decide) (by decide)
    rw [this]; decide
  · have := (claim_C2_shift_classification (1705276800 + 750 * 60)).2.1 (by decide) (by decide)
    rw [this]; decide
  · have := (claim_C2_shift_classification (1705276800 + 751 * 60)).2.2 (by decide)
    rw [this]; decide
  · have := (claim_C2_shift_classification (1705536000 + 800 * 60)).2.2 (by decide)
    rw [this]; decide

/-! ## C3: attendance-penalty tiers -/

/-- C3: for every lateness value `t ≥ 0` the penalty is 0 below 10 minutes,
3 on `[10,20)`, 5 on `[20,60)`, 10 from 60 on; the function is monotone
non-decreasing, and takes the stated values at 9, 10, 19, 20, 59, 60. -/
theorem claim_C3_penalty_tiers :
    (∀ t : Int, 0 ≤ t →
      (t < 10 → attendancePenaltyOf t = 0) ∧
      (10 ≤ t → t < 20 → attendancePenaltyOf t = 3) ∧
      (20 ≤ t → t < 60 → attendancePenaltyOf t = 5) ∧
      (60 ≤ t → attendancePenaltyOf t = 10)) ∧
    (∀ t u : Int, 0 ≤ t → t ≤ u → attendancePenaltyOf t ≤ attendancePenaltyOf u) ∧
    (attendancePenaltyOf 9 = 0 ∧ attendancePenaltyOf 10 = 3 ∧ attendancePenaltyOf 19 = 3 ∧
      attendancePenaltyOf 20 = 5 ∧ attendancePenaltyOf 59 = 5 ∧ attendancePenaltyOf 60 = 10) := by
  refine ⟨fun t _ => ?_, fun t u _ htu => ?_, by decide⟩
  · unfold attendancePenaltyOf
    refine ⟨fun h => ?_, fun h h' => ?_, fun h h' => ?_, fun h => ?_⟩ <;>
      split_ifs <;> first | rfl | omega
  · unfold attendancePenaltyOf
    split_ifs <;> first | omega | norm_num

/-- C3 witness: the tier table and monotonicity at concrete laterness values. -/
theorem claim_C3_witness :
    attendancePenaltyOf 25 = 5 ∧ attendancePenaltyOf 25 ≤ attendancePenaltyOf 61 := by
  exact ⟨((claim_C3_penalty_tiers.1 25 (by decide)).2.2.1 (by decide) (by decide)),
    claim_C3_penalty_tiers.2.1 25 61 (by decide) (by decide)⟩

/-! ## Concrete fixtures (witness and counterexample inputs)

Column mapping and rows in the shape of the source's `FORCE_MAPPING`
(`Employee_Name`/`Date`/`Check_In`/`Check_Out`/`Paid`/`Penalty`).
`1705276800` is 2024-01-15T00:00 (a Monday); epoch day 19737. -/

def exMapping : ColumnMapping :=
  ⟨"Employee_Name", "Date", "Check_In", "Check_Out", "Paid", some "Penalty"⟩

def exIds : Nat → String := fun n => "s" ++ toString n

/-- Scenario C of the spec: arrival 11:05, no departure punch. -/
def rowScenarioC : AttendanceRecord :=
  [("Employee_Name", "Ali"), ("Date", "2024-01-15"), ("Check_In", "11:05")]

/-- A day with no parseable check-in but a paid amount and a manual penalty. -/
def rowNoCheckIn : AttendanceRecord :=
  [("Employee_Name", "Ali"), ("Date", "2024-01-15"), ("Penalty", "2"), ("Paid", "4")]

/-- Arrival 11:30 (lateness 30 → penalty 5), departure 20:00, manual penalty 2. -/
def rowLate : AttendanceRecord :=
  [("Employee_Name", "Ali"), ("Date", "2024-01-15"), ("Check_In", "11:30"),
   ("Check_Out", "20:00"), ("Penalty", "2")]

/-- Scenario A of the spec: arrival 10:40, departure 20:00. -/
def rowPlain : AttendanceRecord :=
  [("Employee_Name", "Ali"), ("Date", "2024-01-15"), ("Check_In", "10:40"),
   ("Check_Out", "20:00")]

/-- Scenario D of the spec: an unparseable date. -/
def rowBadDate : AttendanceRecord :=
  [("Employee_Name", "Bob"), ("Date", "N/A"), ("Check_In", "10:00")]

/-- A row with no date cell at all (`record[mapping.date] || ''` gives `""`). -/
def rowEmptyDate : AttendanceRecord :=
  [("Employee_Name", "Bob"), ("Check_In", "10:00")]

/-- The group the pipeline forms from `rowNoCheckIn`. -/
def exGroup : Group := ⟨("ali", 19737), "Ali", 1705276800, [rowNoCheckIn]⟩

/-! ## C5: placeholder shift for check-in-less days -/

/-- C5: the pipeline emits exactly one shift per surviving group (groups are
never dropped), and a group in which zero check-ins parsed yields the
placeholder: zero timing and pay fields, `amountPaid` the summed paid value
of the group's rows, `balanceRemaining = -amountPaid`, shift type A. -/
theorem claim_C5_placeholder (rows : List AttendanceRecord) (mapping : ColumnMapping)
    (today : Instant) (ids : Nat → String) :
    (processPayroll rows mapping today ids).detailedLogs
        = ((groupPass rows mapping).groups.enum).map (fun p => shiftOfGroup mapping (ids p.1) p.2) ∧
    ∀ id g, groupCheckIns mapping g = [] →
      shiftOfGroup mapping id g =
        { id, name := g.displayName, date := epochDayOf g.parsedDate,
          actualIn := g.parsedDate, actualOut := g.parsedDate, shiftType := .A,
          shiftStart := g.parsedDate, latenessMinutes := 0, earlyMinutes := 0, workHours := 0,
          durationHours := 0, otHours := 0, otPay := 0, standardPay := 0, attendancePenalty := 0,
          manualPenalty := groupManualPenaltySum mapping g, manualAdjustment := 0,
          penaltyWaiver := 0, adjustmentNote := none, netPay := 0,
          amountPaid := groupPaidSum mapping g,
          balanceRemaining := -(groupPaidSum mapping g) } := by
  refine ⟨rfl, fun id g h => ?_⟩
  unfold groupCheckIns at h
  simp only [shiftOfGroup]
  rw [if_pos h]
  rfl

/-- C5 witness: the concrete check-in-less group built from `rowNoCheckIn`
(manual penalty 2, paid 4), and the pipeline's one-shift-per-group emission. -/
theorem claim_C5_witness :
    shiftOfGroup exMapping "s0" exGroup =
      { id := "s0", name := "Ali", date := 19737, actualIn := 1705276800,
        actualOut := 1705276800, shiftType := .A, shiftStart := 1705276800,
        latenessMinutes := 0, earlyMinutes := 0, workHours := 0, durationHours := 0,
        otHours := 0, otPay := 0, standardPay := 0, attendancePenalty := 0,
        manualPenalty := groupManualPenaltySum exMapping exGroup, manualAdjustment := 0,
        penaltyWaiver := 0, adjustmentNote := none, netPay := 0,
        amountPaid := groupPaidSum exMapping exGroup,
        balanceRemaining := -(groupPaidSum exMapping exGroup) } ∧
    (processPayroll [rowNoCheckIn] exMapping 0 exIds).detailedLogs
      = ((groupPass [rowNoCheckIn] exMapping).groups.enum).map
          (fun p => shiftOfGroup exMapping (exIds p.1) p.2) :=
  ⟨(claim_C5_placeholder [] exMapping 0 exIds).2 "s0" exGroup (by decide),
   (claim_C5_placeholder [rowNoCheckIn] exMapping 0 exIds).1⟩

/-! ## C4: the missing-checkout fallback (code bug) -/

/-- C4 (code bug): the source computes the missing-checkout fallback as
`addDays(actualIn, 0.375)`, intending `+9` hours; but `addDays` truncates
fractional day amounts to whole days, so the fallback adds nothing:
`actualOut = actualIn` and `workHours = 0`, not `actualIn + 9h` / `9`.
On Scenario C's input (arrival 11:05, no departure) the code produces
`actualOut - actualIn = 0` and `workHours = 0` (type C, lateness 5,
penalty 0, and — coincidentally, since zero hours also earn no overtime —
net pay 10). -/
theorem claim_C4_fallback_bug :
    (∀ t : Instant, addDays t (0.375 : ℚ) = t) ∧
    (processPayroll [rowScenarioC] exMapping 0 exIds).detailedLogs.map
        (fun s => (s.actualOut - s.actualIn, s.workHours, s.shiftType, s.latenessMinutes,
          s.attendancePenalty, s.netPay))
      = [(0, 0, .C, 5, 0, 10)] := by
  constructor
  · intro t
    unfold addDays jsTruncToInt
    rw [if_neg (by norm_num)]
    have hf : ⌊(0.375 : ℚ)⌋ = 0 := by norm_num [Int.floor_eq_zero_iff]
    rw [hf]; ring
  · decide

/-! ## C8: unparseable-date rows (factorisation of the cleansing pass) -/

/-- Rows a cleansing-pass iteration skips for their name (empty or a
re-embedded header literal). -/
def nameSkipped (mapping : ColumnMapping) (r : AttendanceRecord) : Prop :=
  nameValOf mapping r = "" ∨ toLowerStr (nameValOf mapping r) = "name" ∨
    toLowerStr (nameValOf mapping r) = "employee_name"

instance (mapping : ColumnMapping) (r : AttendanceRecord) :
    Decidable (nameSkipped mapping r) := by unfold nameSkipped; infer_instance

/-- The cleansing-log entry a date-parse failure appends for a row. -/
def dateFailLog (mapping : ColumnMapping) (r : AttendanceRecord) : CleansingLog :=
  ⟨.TIME_INTERPOLATION,
    "Skipping record for " ++ nameValOf mapping r ++ " due to unparseable date: \""
      ++ dateValOf mapping r ++ "\""⟩

/-- The log entries one row contributes (independent of the grouping state). -/
def rowLogOf (mapping : ColumnMapping) (r : AttendanceRecord) : List CleansingLog :=
  if nameSkipped mapping r then []
  else if dateValOf mapping r = "" then []
  else
    match robustParseDate (dateValOf mapping r) with
    | none => [dateFailLog mapping r]
    | some _ => []

/-- The grouping effect of one row (independent of the accumulated logs). -/
def rowGroupsStep (mapping : ColumnMapping) (groups : List Group) (r : AttendanceRecord) :
    List Group :=
  if nameSkipped mapping r then groups
  else if dateValOf mapping r = "" then groups
  else
    match robustParseDate (dateValOf mapping r) with
    | none => groups
    | some dateObj =>
      insertIntoGroups (toLowerStr (nameValOf mapping r), epochDayOf dateObj)
        (nameValOf mapping r) dateObj r groups

theorem groupStep_factor (mapping : ColumnMapping) (st : GroupState) (r : AttendanceRecord) :
    groupStep mapping st r = ⟨rowGroupsStep mapping st.groups r, st.logs ++ rowLogOf mapping r⟩ := by
  unfold groupStep rowGroupsStep rowLogOf nameSkipped dateFailLog nameValOf dateValOf
  dsimp only
  split_ifs <;> try simp
  split <;> simp

theorem foldl_groupStep_factor (mapping : ColumnMapping) (rows : List AttendanceRecord)
    (st : GroupState) :
    rows.foldl (groupStep mapping) st =
      ⟨rows.foldl (rowGroupsStep mapping) st.groups, st.logs ++ rows.flatMap (rowLogOf mapping)⟩ := by
  induction rows generalizing st with
  | nil => simp
  | cons r rs ih =>
    rw [List.foldl_cons, ih, groupStep_factor]
    simp

theorem groupPass_groups (mapping : ColumnMapping) (rows : List AttendanceRecord) :
    (groupPass rows mapping).groups = rows.foldl (rowGroupsStep mapping) [] := by
  rw [groupPass, foldl_groupStep_factor]

theorem groupPass_logs (mapping : ColumnMapping) (rows : List AttendanceRecord) :
    (groupPass rows mapping).logs = rows.flatMap (rowLogOf mapping) := by
  rw [groupPass, foldl_groupStep_factor]; simp

/-- C8 (amended): a row with a usable name and a non-empty date field that
fails to parse contributes exactly one date-failure cleansing-log entry, in
row order, affects no group, and leaves every emitted shift unchanged —
processing of the surrounding rows continues. (A row whose date field is
empty is dropped silently instead, see the counterexample.) -/
theorem claim_C8_bad_date_row (mapping : ColumnMapping) (l1 l2 : List AttendanceRecord)
    (r : AttendanceRecord) (today : Instant) (ids : Nat → String)
    (hname : ¬ nameSkipped mapping r)
    (hdate : dateValOf mapping r ≠ "")
    (hparse : robustParseDate (dateValOf mapping r) = none) :
    (groupPass (l1 ++ r :: l2) mapping).logs
        = (groupPass l1 mapping).logs ++ [dateFailLog mapping r] ++ (groupPass l2 mapping).logs ∧
    (groupPass (l1 ++ r :: l2) mapping).groups = (groupPass (l1 ++ l2) mapping).groups ∧
    (processPayroll (l1 ++ r :: l2) mapping today ids).detailedLogs
        = (processPayroll (l1 ++ l2) mapping today ids).detailedLogs := by
  have hlog : rowLogOf mapping r = [dateFailLog mapping r] := by
    unfold rowLogOf
    rw [if_neg hname, if_neg hdate, hparse]
  have hgrp : ∀ g, rowGroupsStep mapping g r = g := by
    intro g
    unfold rowGroupsStep
    rw [if_neg hname, if_neg hdate, hparse]
  have hgroups : (groupPass (l1 ++ r :: l2) mapping).groups
      = (groupPass (l1 ++ l2) mapping).groups := by
    rw [groupPass_groups, groupPass_groups, List.foldl_append, List.foldl_append,
      List.foldl_cons, hgrp]
  refine ⟨?_, hgroups, ?_⟩
  · rw [groupPass_logs, groupPass_logs, groupPass_logs]
    simp [hlog]
  · rw [processPayroll_detailedLogs, processPayroll_detailedLogs, hgroups]

/-- C8 witness: the Scenario D row (`"N/A"` date) dropped from between two
good rows, logging exactly one date-failure entry. -/
theorem claim_C8_witness :
    (groupPass [rowPlain, rowBadDate, rowScenarioC] exMapping).logs
        = (groupPass [rowPlain] exMapping).logs ++ [dateFailLog exMapping rowBadDate]
          ++ (groupPass [rowScenarioC] exMapping).logs ∧
    (groupPass [rowPlain, rowBadDate, rowScenarioC] exMapping).groups
        = (groupPass [rowPlain, rowScenarioC] exMapping).groups ∧
    (processPayroll [rowPlain, rowBadDate, rowScenarioC] exMapping 0 exIds).detailedLogs
        = (processPayroll [rowPlain, rowScenarioC] exMapping 0 exIds).detailedLogs :=
  claim_C8_bad_date_row exMapping [rowPlain] [rowScenarioC] rowBadDate 0 exIds
    (by decide) (by decide) (by decide)

/-- C8 counterexample: a row whose date field is empty. Its date fails to
parse (`robustParseDate "" = none`) and its name is usable, yet the row is
dropped with no cleansing-log entry at all — the claim's "exactly one
cleansing-log entry" fails on it. -/
theorem claim_C8_counterexample :
    ¬ nameSkipped exMapping rowEmptyDate ∧
    robustParseDate (dateValOf exMapping rowEmptyDate) = none ∧
    (processPayroll [rowEmptyDate] exMapping 0 exIds).cleansingLogs = [] ∧
    (processPayroll [rowEmptyDate] exMapping 0 exIds).detailedLogs = [] := by
  refine ⟨by decide, by decide, ?_, ?_⟩ <;> decide

/-! ## C1: the net-pay invariant through creation and manager edits -/

theorem applyOtherPenaltyCore_inv (parsed : ℚ) (reason : String) (l : DayShift)
    (h : l.manualPenalty = 0) : payInvariant (applyOtherPenaltyCore parsed reason l) := by
  unfold payInvariant applyOtherPenaltyCore
  dsimp only
  exact ⟨by rw [h]; ring, rfl⟩

theorem removePenaltyUnwaive_inv (l : DayShift) (h : l.manualPenalty = 0) :
    payInvariant (removePenaltyUnwaive l) := by
  unfold payInvariant removePenaltyUnwaive
  dsimp only
  exact ⟨by rw [h]; ring, rfl⟩

theorem removePenaltyWaive_inv (reason : String) (l : DayShift) (h : l.manualPenalty = 0) :
    payInvariant (removePenaltyWaive reason l) := by
  unfold payInvariant removePenaltyWaive
  dsimp only
  exact ⟨by rw [h]; ring, rfl⟩

theorem toggleWaiverCore_inv (l : DayShift) (h : l.manualPenalty = 0) :
    payInvariant (toggleWaiverCore l) := by
  unfold payInvariant toggleWaiverCore
  dsimp only
  exact ⟨by rw [h]; ring, rfl⟩

theorem removePenaltyShift_mpInv (reason : Option String) (l : DayShift) (h : mpInv l) :
    mpInv (removePenaltyShift reason l) := by
  unfold removePenaltyShift
  split_ifs with hw
  · exact fun hm => removePenaltyUnwaive_inv l hm
  · match reason with
    | none => exact h
    | some r => exact fun hm => removePenaltyWaive_inv r l hm

/-- Frame-respecting map over the shift list preserves the conditional
invariant when the per-shift mutation does. -/
theorem mpInv_map_ite (f : DayShift → DayShift) (id : String)
    (hf : ∀ l, mpInv l → mpInv (f l)) (logs : List DayShift)
    (h : ∀ s ∈ logs, mpInv s) :
    ∀ s ∈ logs.map (fun l => if l.id = id then f l else l), mpInv s := by
  intro s hs
  obtain ⟨l, hl, rfl⟩ := List.mem_map.mp hs
  by_cases hid : l.id = id
  · rw [if_pos hid]; exact hf l (h l hl)
  · rw [if_neg hid]; exact h l hl

theorem mpInv_applyAction (a : ManagerAction) (logs : List DayShift)
    (h : ∀ s ∈ logs, mpInv s) : ∀ s ∈ applyAction a logs, mpInv s := by
  cases a with
  | adjust id amount reason =>
    dsimp only [applyAction, applyOtherPenalty]
    rcases amount with _ | a
    · exact h
    · dsimp only
      split
      · exact h
      · rcases reason with _ | r
        · exact h
        · dsimp only
          split_ifs
          · exact h
          · exact mpInv_map_ite _ id (fun l _ hm => applyOtherPenaltyCore_inv _ r l hm) logs h
  | waiverButton id reason =>
    dsimp only [applyAction, removePenalty]
    exact mpInv_map_ite _ id (removePenaltyShift_mpInv reason) logs h
  | toggle id =>
    dsimp only [applyAction, toggleWaiver]
    exact mpInv_map_ite _ id (fun l _ hm => toggleWaiverCore_inv l hm) logs h
  | note id text =>
    dsimp only [applyAction, addManagerNote]
    rcases text with _ | n
    · exact h
    · dsimp only
      exact mpInv_map_ite (fun l => { l with adjustmentNote := some n }) id
        (fun l hl hm => hl hm) logs h

theorem mpInv_applyActions (acts : List ManagerAction) (logs : List DayShift)
    (h : ∀ s ∈ logs, mpInv s) : ∀ s ∈ applyActions acts logs, mpInv s := by
  induction acts generalizing logs with
  | nil => exact h
  | cons a rest ih => exact ih (applyAction a logs) (mpInv_applyAction a logs h)

/-- C1 (amended): for every `ComputedShift` whose `manualPenalty` is zero,
both at creation and after any number of penalty-waiver toggles and manual
adjustments (and notes), `netPay = standardPay + otPay -
(attendancePenalty - penaltyWaiver) - manualPenalty - manualAdjustment` and
`balanceRemaining = netPay - amountPaid`. (For `manualPenalty ≠ 0` the
invariant fails: the placeholder shift sets `netPay = 0` regardless, and the
manager mutations recompute `netPay` without the `manualPenalty` term — see
the counterexample.) -/
theorem claim_C1_pay_invariant (rows : List AttendanceRecord) (mapping : ColumnMapping)
    (today : Instant) (ids : Nat → String) (acts : List ManagerAction) :
    ∀ s ∈ applyActions acts (processPayroll rows mapping today ids).detailedLogs,
      s.manualPenalty = 0 →
      s.netPay = s.standardPay + s.otPay - (s.attendancePenalty - s.penaltyWaiver)
          - s.manualPenalty - s.manualAdjustment ∧
      s.balanceRemaining = s.netPay - s.amountPaid := by
  have hbase : ∀ s ∈ (processPayroll rows mapping today ids).detailedLogs, mpInv s := by
    intro s hs
    obtain ⟨i, g, rfl⟩ := mem_detailedLogs rows mapping today ids s hs
    exact shiftOfGroup_mpInv mapping (ids i) g
  intro s hs hm
  exact mpInv_applyActions acts _ hbase s hs hm

/-- Edit history exercising several toggles, an adjustment and a note. -/
def exActs : List ManagerAction :=
  [.toggle "s0", .adjust "s0" (some "2.5") (some "uniform"), .toggle "s0",
   .waiverButton "s0" (some "ok"), .note "s0" (some "checked")]

/-- C1 witness: the invariant holds across a concrete run (Scenario A's row,
no manual-penalty column value) followed by a concrete edit history. -/
theorem claim_C1_witness :
    List.Forall payInvariant
      (applyActions exActs (processPayroll [rowPlain] exMapping 0 exIds).detailedLogs) := by
  rw [List.forall_iff_forall_mem]
  have hmp : ∀ s ∈ applyActions exActs (processPayroll [rowPlain] exMapping 0 exIds).detailedLogs,
      s.manualPenalty = 0 := by decide
  intro s hs
  exact claim_C1_pay_invariant [rowPlain] exMapping 0 exIds exActs s hs (hmp s hs)

/-- C1 counterexample: on a day with no parseable check-in but a manual
penalty of 2 (and 4 paid), the created placeholder has `netPay = 0` while
the claimed formula evaluates to `-2` — the stated invariant is violated
already at creation. -/
theorem claim_C1_counterexample :
    (processPayroll [rowNoCheckIn] exMapping 0 exIds).detailedLogs.map
        (fun s => (s.netPay,
          s.standardPay + s.otPay - (s.attendancePenalty - s.penaltyWaiver)
            - s.manualPenalty - s.manualAdjustment))
      = [(0, -2)] := by decide

/-! ## C6: waive-then-un-waive round trip -/

theorem toggle_toggle_payProj (l : DayShift) (hmp : l.manualPenalty = 0)
    (hw : l.penaltyWaiver = 0) (hpen : 0 ≤ l.attendancePenalty)
    (hinv : payInvariant l) :
    payProj (toggleWaiverCore (toggleWaiverCore l)) = payProj l := by
  obtain ⟨h1, h2⟩ := hinv
  unfold payProj toggleWaiverCore
  dsimp only
  rw [hw, if_neg (lt_irrefl (0 : ℚ))]
  by_cases hp : l.attendancePenalty > 0
  · rw [if_pos hp]
    simp only [Prod.mk.injEq]
    constructor
    · rw [h1, hmp, hw]; ring
    · rw [h2, h1, hmp, hw]; ring
  · have hp0 : l.attendancePenalty = 0 := le_antisymm (not_lt.mp hp) hpen
    rw [if_neg hp]
    simp only [Prod.mk.injEq]
    constructor
    · rw [h1, hmp, hw, hp0]; ring
    · rw [h2, h1, hmp, hw, hp0]; ring

theorem removePenalty_double_payProj (l : DayShift) (r1 : String) (r2 : Option String)
    (hmp : l.manualPenalty = 0) (hw : l.penaltyWaiver = 0)
    (hpen : 0 ≤ l.attendancePenalty) (hinv : payInvariant l) :
    payProj (removePenaltyShift r2 (removePenaltyShift (some r1) l)) = payProj l := by
  obtain ⟨h1, h2⟩ := hinv
  unfold payProj removePenaltyShift removePenaltyWaive removePenaltyUnwaive
  dsimp only
  rw [hw, if_neg (lt_irrefl (0 : ℚ))]
  dsimp only
  by_cases hp : l.attendancePenalty > 0
  · rw [if_pos hp]
    simp only [Prod.mk.injEq]
    constructor
    · rw [h1, hmp, hw]; ring
    · rw [h2, h1, hmp, hw]; ring
  · have hp0 : l.attendancePenalty = 0 := le_antisymm (not_lt.mp hp) hpen
    rw [hp0, if_neg (lt_irrefl (0 : ℚ))]
    rcases r2 with _ | r2 <;> dsimp only <;> simp only [Prod.mk.injEq] <;> constructor
    · rw [h1, hmp, hw, hp0]; ring
    · rw [h2, h1, hmp, hw, hp0]; ring
    · rw [h1, hmp, hw, hp0]; ring
    · rw [h2, h1, hmp, hw, hp0]; ring

/-- Composing two by-id edits fuses into one by-id edit when the mutation
preserves the id. -/
theorem map_ite_comp (f g : DayShift → DayShift) (hid : ∀ l, (f l).id = l.id) (id : String)
    (logs : List DayShift) :
    (logs.map (fun l => if l.id = id then f l else l)).map
        (fun l => if l.id = id then g l else l)
      = logs.map (fun l => if l.id = id then g (f l) else l) := by
  rw [List.map_map]
  apply List.map_congr_left
  intro l _
  by_cases h : l.id = id
  · simp only [Function.comp, if_pos h, hid l, if_pos]
  · simp only [Function.comp, if_neg h]

/-- C6 (amended): on a shift list produced by the pipeline in which every
shift's `manualPenalty` is zero, toggling the penalty waiver twice in
succession — via `toggleWaiver`, or via `removePenalty` pressed twice with
any supplied reasons — returns every shift's `netPay` and `balanceRemaining`
exactly to their pre-toggle values. (A nonzero `manualPenalty` is dropped by
the recomputation, see the counterexample.) -/
theorem claim_C6_waiver_roundtrip (rows : List AttendanceRecord) (mapping : ColumnMapping)
    (today : Instant) (ids : Nat → String) (sid : String) (r1 : String) (r2 : Option String)
    (hmp : ∀ s ∈ (processPayroll rows mapping today ids).detailedLogs, s.manualPenalty = 0) :
    (toggleWaiver sid (toggleWaiver sid
        (processPayroll rows mapping today ids).detailedLogs)).map payProj
      = (processPayroll rows mapping today ids).detailedLogs.map payProj ∧
    (removePenalty sid r2 (removePenalty sid (some r1)
        (processPayroll rows mapping today ids).detailedLogs)).map payProj
      = (processPayroll rows mapping today ids).detailedLogs.map payProj := by
  have hprops : ∀ s ∈ (processPayroll rows mapping today ids).detailedLogs,
      s.penaltyWaiver = 0 ∧ 0 ≤ s.attendancePenalty ∧ payInvariant s := by
    intro s hs
    obtain ⟨i, g, rfl⟩ := mem_detailedLogs rows mapping today ids s hs
    exact ⟨shiftOfGroup_waiver_zero mapping (ids i) g,
      shiftOfGroup_pen_nonneg mapping (ids i) g,
      shiftOfGroup_mpInv mapping (ids i) g (hmp _ hs)⟩
  constructor
  · rw [toggleWaiver, toggleWaiver,
      map_ite_comp toggleWaiverCore toggleWaiverCore (fun l => rfl) sid, List.map_map]
    apply List.map_congr_left
    intro l hl
    obtain ⟨hw, hpen, hinv⟩ := hprops l hl
    by_cases h : l.id = sid
    · simp only [Function.comp, if_pos h]
      exact toggle_toggle_payProj l (hmp l hl) hw hpen hinv
    · simp only [Function.comp, if_neg h]
  · rw [removePenalty, removePenalty,
      map_ite_comp (removePenaltyShift (some r1)) (removePenaltyShift r2) ?hid sid,
      List.map_map]
    case hid =>
      intro l
      unfold removePenaltyShift removePenaltyWaive removePenaltyUnwaive
      split_ifs
      · rfl
      · rcases r1 with _ | r <;> rfl
    apply List.map_congr_left
    intro l hl
    obtain ⟨hw, hpen, hinv⟩ := hprops l hl
    by_cases h : l.id = sid
    · simp only [Function.comp, if_pos h]
      exact removePenalty_double_payProj l r1 r2 (hmp l hl) hw hpen hinv
    · simp only [Function.comp, if_neg h]

/-- C6 witness: a concrete double toggle on Scenario A's shift. -/
theorem claim_C6_witness :
    (toggleWaiver "s0" (toggleWaiver "s0"
        (processPayroll [rowPlain] exMapping 0 exIds).detailedLogs)).map payProj
      = (processPayroll [rowPlain] exMapping 0 exIds).detailedLogs.map payProj ∧
    (removePenalty "s0" none (removePenalty "s0" (some "family")
        (processPayroll [rowPlain] exMapping 0 exIds).detailedLogs)).map payProj
      = (processPayroll [rowPlain] exMapping 0 exIds).detailedLogs.map payProj :=
  claim_C6_waiver_roundtrip [rowPlain] exMapping 0 exIds "s0" "family" none (by decide)

/-- C6 counterexample: arrival 11:30 (penalty 5) with a manual penalty of 2
creates `netPay = balanceRemaining = 3`; waiving and un-waiving via the
toggle leaves `netPay = balanceRemaining = 5` — the round trip does not
restore the pre-toggle values. -/
theorem claim_C6_counterexample :
    (processPayroll [rowLate] exMapping 0 exIds).detailedLogs.map payProj = [(3, 3)] ∧
    (toggleWaiver "s0" (toggleWaiver "s0"
        (processPayroll [rowLate] exMapping 0 exIds).detailedLogs)).map payProj
      = [(5, 5)] := by
  constructor <;> decide

/-! ## C9: empty manager-action inputs -/

/-- C9 (amended): the manual-adjustment action is a no-op when the amount
prompt is cancelled, the amount does not parse, or the reason prompt is
cancelled or returns the empty string; the waiver action is a no-op when its
reason prompt is cancelled, provided the targeted shift is not currently
waived. (The waiver action accepts an empty-string reason and the un-waive
direction proceeds without any prompt — see the counterexample.) -/
theorem claim_C9_noop_actions (logs : List DayShift) (id : String) (r : Option String)
    (a : String) (am : Option String) :
    (applyOtherPenalty id none r logs = logs) ∧
    (jsParseFloat a.data = none → applyOtherPenalty id (some a) r logs = logs) ∧
    (applyOtherPenalty id am none logs = logs) ∧
    (applyOtherPenalty id am (some "") logs = logs) ∧
    ((∀ l ∈ logs, l.id = id → l.penaltyWaiver ≤ 0) → removePenalty id none logs = logs) := by
  refine ⟨rfl, fun h => ?_, ?_, ?_, fun h => ?_⟩
  · simp only [applyOtherPenalty, h]
  · rcases am with _ | a'
    · rfl
    · dsimp only [applyOtherPenalty]
      split <;> rfl
  · rcases am with _ | a'
    · rfl
    · dsimp only [applyOtherPenalty]
      split
      · rfl
      · rw [if_pos rfl]
  · have hfix : ∀ l ∈ logs, (if l.id = id then removePenaltyShift none l else l) = l := by
      intro l hl
      by_cases hid : l.id = id
      · rw [if_pos hid]
        unfold removePenaltyShift
        rw [if_neg (not_lt.mpr (h l hl hid))]
      · rw [if_neg hid]
    rw [removePenalty, List.map_congr_left hfix, List.map_id']

/-- C9 witness: each no-op shape on the concrete shift list of `rowLate`
(whose shift is unwaived). -/
theorem claim_C9_witness :
    (applyOtherPenalty "s0" none (some "x")
        (processPayroll [rowLate] exMapping 0 exIds).detailedLogs
      = (processPayroll [rowLate] exMapping 0 exIds).detailedLogs) ∧
    (applyOtherPenalty "s0" (some "abc") (some "x")
        (processPayroll [rowLate] exMapping 0 exIds).detailedLogs
      = (processPayroll [rowLate] exMapping 0 exIds).detailedLogs) ∧
    (applyOtherPenalty "s0" (some "5") none
        (processPayroll [rowLate] exMapping 0 exIds).detailedLogs
      = (processPayroll [rowLate] exMapping 0 exIds).detailedLogs) ∧
    (applyOtherPenalty "s0" (some "5") (some "")
        (processPayroll [rowLate] exMapping 0 exIds).detailedLogs
      = (processPayroll [rowLate] exMapping 0 exIds).detailedLogs) ∧
    (removePenalty "s0" none (processPayroll [rowLate] exMapping 0 exIds).detailedLogs
      = (processPayroll [rowLate] exMapping 0 exIds).detailedLogs) := by
  have thm := claim_C9_noop_actions
    (processPayroll [rowLate] exMapping 0 exIds).detailedLogs "s0" (some "x") "abc" (some "5")
  exact ⟨thm.1, thm.2.1 (by decide), thm.2.2.1, thm.2.2.2.1, thm.2.2.2.2 (by decide)⟩

/-- C9 counterexample: invoking the waiver action with an empty-string
reason (no reason supplied, prompt confirmed empty) on the unwaived
`rowLate` shift is not a no-op: it applies the waiver, changes `netPay`
from 3 to 10, and records the note `"Waived: "`. -/
theorem claim_C9_counterexample :
    (processPayroll [rowLate] exMapping 0 exIds).detailedLogs.map
        (fun s => (s.netPay, s.penaltyWaiver, s.adjustmentNote)) = [(3, 0, none)] ∧
    (removePenalty "s0" (some "")
        (processPayroll [rowLate] exMapping 0 exIds).detailedLogs).map
        (fun s => (s.netPay, s.penaltyWaiver, s.adjustmentNote))
      = [(10, 5, some "Waived: ")] := by
  constructor <;> decide

/-! ## C10: frame property of the manager actions -/

/-- The fields of a `DayShift` a manager action may never change. -/
def framePreserved (l l' : DayShift) : Prop :=
  l'.id = l.id ∧ l'.name = l.name ∧ l'.date = l.date ∧ l'.actualIn = l.actualIn ∧
  l'.actualOut = l.actualOut ∧ l'.shiftType = l.shiftType ∧ l'.shiftStart = l.shiftStart ∧
  l'.latenessMinutes = l.latenessMinutes ∧ l'.earlyMinutes = l.earlyMinutes ∧
  l'.workHours = l.workHours ∧ l'.durationHours = l.durationHours ∧
  l'.otHours = l.otHours ∧ l'.otPay = l.otPay ∧ l'.standardPay = l.standardPay ∧
  l'.attendancePenalty = l.attendancePenalty ∧ l'.manualPenalty = l.manualPenalty ∧
  l'.amountPaid = l.amountPaid

/-- Frame condition relative to the edited id: untargeted shifts are left
completely unchanged; the targeted shift keeps every field outside
`penaltyWaiver` / `manualAdjustment` / `adjustmentNote` / `netPay` /
`balanceRemaining`. -/
def frameOK (editedId : String) (l l' : DayShift) : Prop :=
  (l.id ≠ editedId → l' = l) ∧ framePreserved l l'

theorem framePreserved_refl (l : DayShift) : framePreserved l l :=
  ⟨rfl, rfl, rfl, rfl, rfl, rfl, rfl, rfl, rfl, rfl, rfl, rfl, rfl, rfl, rfl, rfl, rfl⟩

theorem frameOK_of_ite (editedId : String) (f : DayShift → DayShift) (l : DayShift)
    (h : framePreserved l (f l)) :
    frameOK editedId l (if l.id = editedId then f l else l) := by
  by_cases hid : l.id = editedId
  · rw [if_pos hid]
    exact ⟨fun hne => absurd hid hne, h⟩
  · rw [if_neg hid]
    exact ⟨fun _ => rfl, framePreserved_refl l⟩

theorem framePreserved_applyOtherPenaltyCore (parsed : ℚ) (reason : String) (l : DayShift) :
    framePreserved l (applyOtherPenaltyCore parsed reason l) :=
  ⟨rfl, rfl, rfl, rfl, rfl, rfl, rfl, rfl, rfl, rfl, rfl, rfl, rfl, rfl, rfl, rfl, rfl⟩

theorem framePreserved_removePenaltyShift (reason : Option String) (l : DayShift) :
    framePreserved l (removePenaltyShift reason l) := by
  unfold removePenaltyShift
  split_ifs
  · exact ⟨rfl, rfl, rfl, rfl, rfl, rfl, rfl, rfl, rfl, rfl, rfl, rfl, rfl, rfl, rfl, rfl, rfl⟩
  · rcases reason with _ | r
    · exact framePreserved_refl l
    · exact ⟨rfl, rfl, rfl, rfl, rfl, rfl, rfl, rfl, rfl, rfl, rfl, rfl, rfl, rfl, rfl, rfl, rfl⟩

theorem framePreserved_toggleWaiverCore (l : DayShift) :
    framePreserved l (toggleWaiverCore l) :=
  ⟨rfl, rfl, rfl, rfl, rfl, rfl, rfl, rfl, rfl, rfl, rfl, rfl, rfl, rfl, rfl, rfl, rfl⟩

/-- C10: every manager action addressed to shift id X leaves every other
shift completely unchanged, and in the shift(s) with id X changes at most
`penaltyWaiver`, `manualAdjustment`, `adjustmentNote`, `netPay` and
`balanceRemaining` — all other fields are preserved. -/
theorem claim_C10_action_frame (logs : List DayShift) (id : String)
    (amount reason note : Option String) :
    List.Forall₂ (frameOK id) logs (applyOtherPenalty id amount reason logs) ∧
    List.Forall₂ (frameOK id) logs (removePenalty id reason logs) ∧
    List.Forall₂ (frameOK id) logs (toggleWaiver id logs) ∧
    List.Forall₂ (frameOK id) logs (addManagerNote id note logs) := by
  have hrefl : List.Forall₂ (frameOK id) logs logs :=
    List.forall₂_same.mpr (fun l _ => ⟨fun _ => rfl, framePreserved_refl l⟩)
  have hmap : ∀ f : DayShift → DayShift, (∀ l, framePreserved l (f l)) →
      List.Forall₂ (frameOK id) logs (logs.map (fun l => if l.id = id then f l else l)) := by
    intro f hf
    rw [List.forall₂_map_right_iff]
    exact List.forall₂_same.mpr (fun l _ => frameOK_of_ite id f l (hf l))
  refine ⟨?_, ?_, ?_, ?_⟩
  · rcases amount with _ | a
    · exact hrefl
    · dsimp only [applyOtherPenalty]
      split
      · exact hrefl
      · rcases reason with _ | r
        · exact hrefl
        · dsimp only
          split_ifs
          · exact hrefl
          · exact hmap _ (framePreserved_applyOtherPenaltyCore _ r)
  · exact hmap _ (framePreserved_removePenaltyShift reason)
  · exact hmap _ framePreserved_toggleWaiverCore
  · rcases note with _ | n
    · exact hrefl
    · exact hmap _ (fun l =>
        ⟨rfl, rfl, rfl, rfl, rfl, rfl, rfl, rfl, rfl, rfl, rfl, rfl, rfl, rfl, rfl, rfl, rfl⟩)

/-- C10 witness: the frame condition instantiated on the concrete `rowLate`
shift list for all four actions. -/
theorem claim_C10_witness :
    List.Forall₂ (frameOK "s0") (processPayroll [rowLate] exMapping 0 exIds).detailedLogs
        (applyOtherPenalty "s0" (some "1") (some "r")
          (processPayroll [rowLate] exMapping 0 exIds).detailedLogs) ∧
    List.Forall₂ (frameOK "s0") (processPayroll [rowLate] exMapping 0 exIds).detailedLogs
        (removePenalty "s0" (some "r")
          (processPayroll [rowLate] exMapping 0 exIds).detailedLogs) ∧
    List.Forall₂ (frameOK "s0") (processPayroll [rowLate] exMapping 0 exIds).detailedLogs
        (toggleWaiver "s0" (processPayroll [rowLate] exMapping 0 exIds).detailedLogs) ∧
    List.Forall₂ (frameOK "s0") (processPayroll [rowLate] exMapping 0 exIds).detailedLogs
        (addManagerNote "s0" (some "n")
          (processPayroll [rowLate] exMapping 0 exIds).detailedLogs) :=
  claim_C10_action_frame (processPayroll [rowLate] exMapping 0 exIds).detailedLogs "s0"
    (some "1") (some "r") (some "n")

/-! ## C7: determinism (modulo the random shift ids) -/

theorem stripShift_date (s : DayShift) : (stripShift s).date = s.date := rfl
theorem stripShift_name (s : DayShift) : (stripShift s).name = s.name := rfl
theorem stripShift_netPay (s : DayShift) : (stripShift s).netPay = s.netPay := rfl

theorem bumpEmp_strip (s : DayShift) (e : EmployeeSummary) :
    bumpEmp (stripShift s) e = bumpEmp s e := rfl

theorem bumpMonth_strip (s : DayShift) (m : MonthlyStat) :
    bumpMonth (stripShift s) m = bumpMonth s m := rfl

theorem updateEmpMap_strip (s : DayShift) :
    ∀ l : List EmployeeSummary, updateEmpMap (stripShift s) l = updateEmpMap s l
  | [] => by unfold updateEmpMap; rw [bumpEmp_strip, stripShift_name]
  | e :: rest => by
    unfold updateEmpMap
    rw [bumpEmp_strip, stripShift_name, updateEmpMap_strip s rest]

theorem updateMonthMap_strip (s : DayShift) (key : Int × Int) (label : String) :
    ∀ l, updateMonthMap (stripShift s) key label l = updateMonthMap s key label l
  | [] => by unfold updateMonthMap; rw [bumpMonth_strip]
  | (k, m) :: rest => by
    unfold updateMonthMap
    rw [bumpMonth_strip, updateMonthMap_strip s key label rest]

theorem aggStep_strip (today : Instant) (acc : AggState) (s : DayShift) :
    aggStep today acc (stripShift s) = aggStep today acc s := by
  unfold aggStep
  dsimp only
  rw [stripShift_date, stripShift_netPay, updateEmpMap_strip, updateMonthMap_strip]

theorem foldl_strip_congr {σ : Type} (f : σ → DayShift → σ)
    (hf : ∀ acc s, f acc (stripShift s) = f acc s) (init : σ)
    (l1 l2 : List DayShift) (h : l1.map stripShift = l2.map stripShift) :
    l1.foldl f init = l2.foldl f init := by
  have hfe : (fun (x : σ) (y : DayShift) => f x (stripShift y)) = f := by
    funext x y; exact hf x y
  calc l1.foldl f init = l1.foldl (fun x y => f x (stripShift y)) init := by rw [hfe]
    _ = (l1.map stripShift).foldl f init := (List.foldl_map _ _ _ _).symm
    _ = (l2.map stripShift).foldl f init := by rw [h]
    _ = l2.foldl (fun x y => f x (stripShift y)) init := List.foldl_map _ _ _ _
    _ = l2.foldl f init := by rw [hfe]

theorem filter_length_strip_congr (p : DayShift → Bool)
    (hp : ∀ s, p (stripShift s) = p s)
    (l1 l2 : List DayShift) (h : l1.map stripShift = l2.map stripShift) :
    (l1.filter p).length = (l2.filter p).length := by
  have hc : List.countP p (l1.map stripShift) = List.countP p (l2.map stripShift) := by rw [h]
  rw [List.countP_map, List.countP_map] at hc
  have hpe : (p ∘ stripShift) = p := by funext s; exact hp s
  rw [hpe] at hc
  rw [← List.countP_eq_length_filter, ← List.countP_eq_length_filter]
  exact hc

/-- All non-id content of `assemble` depends only on the id-stripped shifts. -/
theorem assemble_strip_congr (today : Instant) (lg : List CleansingLog)
    (l1 l2 : List DayShift) (h : l1.map stripShift = l2.map stripShift) :
    stripResult (assemble today lg l1) = stripResult (assemble today lg l2) := by
  have hagg : l1.foldl (aggStep today) ⟨[], [], 0, none, none⟩
      = l2.foldl (aggStep today) ⟨[], [], 0, none, none⟩ :=
    foldl_strip_congr _ (aggStep_strip today) _ l1 l2 h
  have hlate : l1.foldl (fun a b => a + b.latenessMinutes) 0
      = l2.foldl (fun a b => a + b.latenessMinutes) 0 :=
    foldl_strip_congr (fun a b => a + b.latenessMinutes) (fun _ _ => rfl) 0 l1 l2 h
  have hpen : l1.foldl (fun a b => a + b.attendancePenalty + b.manualPenalty) 0
      = l2.foldl (fun a b => a + b.attendancePenalty + b.manualPenalty) 0 :=
    foldl_strip_congr (fun a b => a + b.attendancePenalty + b.manualPenalty)
      (fun _ _ => rfl) 0 l1 l2 h
  have hot : l1.foldl (fun a b => a + b.otHours) 0 = l2.foldl (fun a b => a + b.otHours) 0 :=
    foldl_strip_congr (fun a b => a + b.otHours) (fun _ _ => rfl) 0 l1 l2 h
  have hworked : (l1.filter isWorkedDay).length = (l2.filter isWorkedDay).length :=
    filter_length_strip_congr isWorkedDay (fun _ => rfl) l1 l2 h
  have hhours : (l1.filter (fun s => s.workHours > 0)).length
      = (l2.filter (fun s => s.workHours > 0)).length :=
    filter_length_strip_congr (fun s => s.workHours > 0) (fun _ => rfl) l1 l2 h
  have hA : (l1.filter (fun s => s.shiftType = .A ∧ s.workHours > 0)).length
      = (l2.filter (fun s => s.shiftType = .A ∧ s.workHours > 0)).length :=
    filter_length_strip_congr (fun s => s.shiftType = .A ∧ s.workHours > 0)
      (fun _ => rfl) l1 l2 h
  have hB : (l1.filter (fun s => s.shiftType = .B ∧ s.workHours > 0)).length
      = (l2.filter (fun s => s.shiftType = .B ∧ s.workHours > 0)).length :=
    filter_length_strip_congr (fun s => s.shiftType = .B ∧ s.workHours > 0)
      (fun _ => rfl) l1 l2 h
  have hC : (l1.filter (fun s => s.shiftType = .C ∧ s.workHours > 0)).length
      = (l2.filter (fun s => s.shiftType = .C ∧ s.workHours > 0)).length :=
    filter_length_strip_congr (fun s => s.shiftType = .C ∧ s.workHours > 0)
      (fun _ => rfl) l1 l2 h
  unfold stripResult assemble
  dsimp only
  rw [hagg, hlate, hpen, hot, hworked, hhours, hA, hB, hC, h]

theorem stripShift_shiftOfGroup (mapping : ColumnMapping) (id : String) (g : Group) :
    stripShift (shiftOfGroup mapping id g) = shiftOfGroup mapping "" g := by
  simp only [stripShift, shiftOfGroup]
  split <;> rfl

theorem processPayroll_def (rows : List AttendanceRecord) (mapping : ColumnMapping)
    (today : Instant) (ids : Nat → String) :
    processPayroll rows mapping today ids
      = assemble today (groupPass rows mapping).logs
          (((groupPass rows mapping).groups.enum).map
            (fun p => shiftOfGroup mapping (ids p.1) p.2)) := rfl

/-- C7 (amended): for a fixed raw-row list, column mapping, and `today`, any
two runs of the pipeline — however the `Math.random()` id generator behaves —
produce results that agree on every field once each shift's random `id` is
blanked out. (The ids themselves differ between runs, so the results are not
bitwise identical — see the counterexample.) -/
theorem claim_C7_deterministic_modulo_ids (rows : List AttendanceRecord)
    (mapping : ColumnMapping) (today : Instant) (ids1 ids2 : Nat → String) :
    stripResult (processPayroll rows mapping today ids1)
      = stripResult (processPayroll rows mapping today ids2) := by
  rw [processPayroll_def, processPayroll_def]
  apply assemble_strip_congr
  rw [List.map_map, List.map_map]
  apply List.map_congr_left
  intro p _
  simp only [Function.comp]
  rw [stripShift_shiftOfGroup, stripShift_shiftOfGroup]

/-- C7 witness: two concrete runs with different id generators agree after
stripping the ids. -/
theorem claim_C7_witness :
    stripResult (processPayroll [rowPlain] exMapping 0 (fun _ => "a"))
      = stripResult (processPayroll [rowPlain] exMapping 0 (fun _ => "b")) :=
  claim_C7_deterministic_modulo_ids [rowPlain] exMapping 0 (fun _ => "a") (fun _ => "b")

/-- C7 counterexample: the results of two runs on identical rows, mapping
and manager-edit history (none) are not bitwise identical — the randomly
generated shift ids differ. -/
theorem claim_C7_counterexample :
    processPayroll [rowPlain] exMapping 0 (fun _ => "a")
      ≠ processPayroll [rowPlain] exMapping 0 (fun _ => "b") := by
  intro hEq
  have h2 := congrArg (fun r => r.detailedLogs.map (fun s => s.id)) hEq
  exact absurd h2 (by decide)

end Peekaboo
